import Mathlib

/-
A shallow embedding of the llvm-ir crate's constant/type model and
module-construction protocol (src/constant.rs, src/module.rs), with
theorems settling the frozen claims about it.

Panics in the Rust source are modelled as `none`; `Option.bind` threads
a panic arising while computing an operand's type. `debug_assert` checks
in the source are conditionally compiled out of release builds and are
not modelled (no claim depends on them).
-/

namespace LlvmIr

/-- Floating point type kinds, from types.rs (`FPType`). -/
inductive FPType where
  | Half
  | Single
  | Double
  | FP128
  | X86_FP80
  | PPC_FP128
deriving DecidableEq, Repr

/-- The Rust enum `Type` from types.rs (named `Ty` here because `Type` is a
Lean keyword). A closed variant set: void, integer, floating-point,
function, pointer, vector, array, structure, named-structure-reference,
label, metadata, token. `TypeRef` sharing is irrelevant to type equality,
so a `Ty` value stands for the referenced type directly. -/
inductive Ty where
  | VoidType
  | IntegerType (bits : Nat)
  | FPTy (fptype : FPType)
  | FuncType (resultType : Ty) (paramTypes : List Ty) (isVarArg : Bool)
  | PointerType (pointeeType : Ty) (addrSpace : Nat)
  | VectorType (elementType : Ty) (numElements : Nat)
  | ArrayType (elementType : Ty) (numElements : Nat)
  | StructType (elementTypes : List Ty) (isPacked : Bool)
  | NamedStructType (name : String)
  | LabelType
  | MetadataType
  | TokenType

/-- From types.rs: a named struct table entry is either opaque or defined. -/
inductive NamedStructDef where
  | Opaque
  | Defined (ty : Ty)

/-- The `Types` interner from types.rs, reduced to the capability the
constant model consumes: the named-struct table lookup. The interner's
constructor methods are modelled below as plain functions (interning as
reference-sharing does not affect structural equality of the results). -/
structure Types where
  namedStructDefs : String → Option NamedStructDef

def Types.int (_ : Types) (bits : Nat) : Ty := Ty.IntegerType bits

def Types.fp (_ : Types) (f : FPType) : Ty := Ty.FPTy f

def Types.bool (t : Types) : Ty := t.int 1

def Types.pointer_to (_ : Types) (ty : Ty) : Ty := Ty.PointerType ty 0

def Types.vector_of (_ : Types) (ty : Ty) (n : Nat) : Ty := Ty.VectorType ty n

def Types.array_of (_ : Types) (ty : Ty) (n : Nat) : Ty := Ty.ArrayType ty n

def Types.struct_of (_ : Types) (tys : List Ty) (isPacked : Bool) : Ty :=
  Ty.StructType tys isPacked

def Types.label_type (_ : Types) : Ty := Ty.LabelType

def Types.token_type (_ : Types) : Ty := Ty.TokenType

def Types.named_struct_def (t : Types) (name : String) : Option NamedStructDef :=
  t.namedStructDefs name

/-- The `Name` type from name.rs: an explicit textual identifier or an
auto-assigned sequence number. -/
inductive Name where
  | name (s : String)
  | number (n : Nat)
deriving DecidableEq, Repr

/-- The `Float` enum from constant.rs. The f32/f64 payloads of `Single`
and `Double` are not modelled: no claim depends on a float's numeric
value, only on its variant (which alone determines its type). -/
inductive CFloat where
  | Half
  | Single
  | Double
  | Quadruple
  | X86_FP80
  | PPC_FP128
deriving DecidableEq, Repr

/-- constant.rs, `impl Typed for Float`. -/
def CFloat.get_type (f : CFloat) (types : Types) : Ty :=
  types.fp (match f with
    | CFloat.Half => FPType.Half
    | CFloat.Single => FPType.Single
    | CFloat.Double => FPType.Double
    | CFloat.Quadruple => FPType.FP128
    | CFloat.X86_FP80 => FPType.X86_FP80
    | CFloat.PPC_FP128 => FPType.PPC_FP128)

/-- Integer comparison predicates, from predicates.rs (file not under
src/; the variant list is the standard LLVM one named by the spec's
source representation). Predicate values never influence type
computation. -/
inductive IntPredicate where
  | EQ | NE | UGT | UGE | ULT | ULE | SGT | SGE | SLT | SLE
deriving DecidableEq, Repr

/-- Floating-point comparison predicates, from predicates.rs (file not
under src/). Values never influence type computation. -/
inductive FPPredicate where
  | PredFalse | OEQ | OGT | OGE | OLT | OLE | ONE | ORD
  | UNO | UEQ | UGT | UGE | ULT | ULE | UNE | PredTrue
deriving DecidableEq, Repr

/-- The `Constant` enum from constant.rs. Each constant-expression
variant's struct (e.g. `Add { operand0, operand1 }`) is inlined as
constructor arguments in field order. `ConstantRef` sharing is
irrelevant to type computation and structural equality, so operands are
embedded directly. `Int.value` is the u64 storage (zero-extended /
truncated as documented in the source), modelled as `Nat`. -/
inductive Constant where
  | Int (bits : Nat) (value : Nat)
  | Float (f : CFloat)
  | Null (ty : Ty)
  | AggregateZero (ty : Ty)
  | Struct (name : Option String) (values : List Constant) (isPacked : Bool)
  | Array (elementType : Ty) (elements : List Constant)
  | Vector (elements : List Constant)
  | Undef (ty : Ty)
  | BlockAddress
  | GlobalReference (name : Name) (ty : Ty)
  | TokenNone
  | Add (operand0 operand1 : Constant)
  | Sub (operand0 operand1 : Constant)
  | Mul (operand0 operand1 : Constant)
  | UDiv (operand0 operand1 : Constant)
  | SDiv (operand0 operand1 : Constant)
  | URem (operand0 operand1 : Constant)
  | SRem (operand0 operand1 : Constant)
  | And (operand0 operand1 : Constant)
  | Or (operand0 operand1 : Constant)
  | Xor (operand0 operand1 : Constant)
  | Shl (operand0 operand1 : Constant)
  | LShr (operand0 operand1 : Constant)
  | AShr (operand0 operand1 : Constant)
  | FAdd (operand0 operand1 : Constant)
  | FSub (operand0 operand1 : Constant)
  | FMul (operand0 operand1 : Constant)
  | FDiv (operand0 operand1 : Constant)
  | FRem (operand0 operand1 : Constant)
  | ExtractElement (vector index : Constant)
  | InsertElement (vector element index : Constant)
  | ShuffleVector (operand0 operand1 mask : Constant)
  | ExtractValue (aggregate : Constant) (indices : List Nat)
  | InsertValue (aggregate element : Constant) (indices : List Nat)
  | GetElementPtr (address : Constant) (indices : List Constant) (inBounds : Bool)
  | Trunc (operand : Constant) (toType : Ty)
  | ZExt (operand : Constant) (toType : Ty)
  | SExt (operand : Constant) (toType : Ty)
  | FPTrunc (operand : Constant) (toType : Ty)
  | FPExt (operand : Constant) (toType : Ty)
  | FPToUI (operand : Constant) (toType : Ty)
  | FPToSI (operand : Constant) (toType : Ty)
  | UIToFP (operand : Constant) (toType : Ty)
  | SIToFP (operand : Constant) (toType : Ty)
  | PtrToInt (operand : Constant) (toType : Ty)
  | IntToPtr (operand : Constant) (toType : Ty)
  | BitCast (operand : Constant) (toType : Ty)
  | AddrSpaceCast (operand : Constant) (toType : Ty)
  | ICmp (predicate : IntPredicate) (operand0 operand1 : Constant)
  | FCmp (predicate : FPPredicate) (operand0 operand1 : Constant)
  | Select (condition trueValue falseValue : Constant)

/-- constant.rs, `fn ev_type`: walk an aggregate type along integer
indices. An `expect`/`panic` in the source is `none`. An array yields
its element type without the index being checked against the length; a
struct selects the element at the index via `get` (out of range is
fatal); any other type while indices remain is fatal. -/
def ev_type (curType : Ty) : List Nat → Option Ty
  | [] => some curType
  | index :: rest =>
    match curType with
    | Ty.ArrayType elementType _ => ev_type elementType rest
    | Ty.StructType elementTypes _ =>
      match elementTypes[index]? with
      | some t => ev_type t rest
      | none => none
    | _ => none

/-- constant.rs, `fn gep_type`: walk from the address's type through the
index list. Pointer, vector, and array dereference unconditionally one
level per index; a struct requires the index to be a literal
`Constant::Int` (anything else is fatal) and selects that field (out of
range is fatal); a named-structure-reference resolves through the named
struct table (absent or opaque entry, or a non-struct body, is fatal).
When the index list is exhausted the result is a pointer to the current
type. -/
def gep_type (types : Types) (curType : Ty) : List Constant → Option Ty
  | [] => some (types.pointer_to curType)
  | index :: rest =>
    match curType with
    | Ty.PointerType pointeeType _ => gep_type types pointeeType rest
    | Ty.VectorType elementType _ => gep_type types elementType rest
    | Ty.ArrayType elementType _ => gep_type types elementType rest
    | Ty.StructType elementTypes _ =>
      match index with
      | Constant.Int _ value =>
        match elementTypes[value]? with
        | some t => gep_type types t rest
        | none => none
      | _ => none
    | Ty.NamedStructType name =>
      match types.named_struct_def name with
      | none => none
      | some NamedStructDef.Opaque => none
      | some (NamedStructDef.Defined ty) =>
        match ty with
        | Ty.StructType elementTypes _ =>
          match index with
          | Constant.Int _ value =>
            match elementTypes[value]? with
            | some t => gep_type types t rest
            | none => none
          | _ => none
        | _ => none
    | _ => none

mutual

/-- constant.rs, `impl Typed for Constant` (`get_type`), together with
the per-variant `Typed` impls it dispatches to (binop_same_type and
binop_left_type both return the first operand's type once the
debug-only assertion is compiled out; explicitly_typed returns the
stored target type). `none` models a panic. -/
def get_type (types : Types) : Constant → Option Ty
  | Constant.Int bits _ => some (types.int bits)
  | Constant.Float f => some (f.get_type types)
  | Constant.Null t => some t
  | Constant.AggregateZero t => some t
  | Constant.Struct _ values isPacked =>
    (get_type_list types values).map (fun ts => types.struct_of ts isPacked)
  | Constant.Array elementType elements =>
    some (types.array_of elementType elements.length)
  | Constant.Vector [] => none
  | Constant.Vector (v0 :: rest) =>
    (get_type types v0).map (fun t => types.vector_of t (v0 :: rest).length)
  | Constant.Undef t => some t
  | Constant.BlockAddress => some types.label_type
  | Constant.GlobalReference _ ty => some (types.pointer_to ty)
  | Constant.TokenNone => some types.token_type
  | Constant.Add operand0 _ => get_type types operand0
  | Constant.Sub operand0 _ => get_type types operand0
  | Constant.Mul operand0 _ => get_type types operand0
  | Constant.UDiv operand0 _ => get_type types operand0
  | Constant.SDiv operand0 _ => get_type types operand0
  | Constant.URem operand0 _ => get_type types operand0
  | Constant.SRem operand0 _ => get_type types operand0
  | Constant.And operand0 _ => get_type types operand0
  | Constant.Or operand0 _ => get_type types operand0
  | Constant.Xor operand0 _ => get_type types operand0
  | Constant.Shl operand0 _ => get_type types operand0
  | Constant.LShr operand0 _ => get_type types operand0
  | Constant.AShr operand0 _ => get_type types operand0
  | Constant.FAdd operand0 _ => get_type types operand0
  | Constant.FSub operand0 _ => get_type types operand0
  | Constant.FMul operand0 _ => get_type types operand0
  | Constant.FDiv operand0 _ => get_type types operand0
  | Constant.FRem operand0 _ => get_type types operand0
  | Constant.ExtractElement vector _ =>
    match get_type types vector with
    | some (Ty.VectorType elementType _) => some elementType
    | _ => none
  | Constant.InsertElement vector _ _ => get_type types vector
  | Constant.ShuffleVector operand0 _ mask =>
    match get_type types operand0 with
    | some (Ty.VectorType elementType _) =>
      match get_type types mask with
      | some (Ty.VectorType _ numElements) =>
        some (types.vector_of elementType numElements)
      | _ => none
    | _ => none
  | Constant.ExtractValue aggregate indices =>
    (get_type types aggregate).bind (fun t => ev_type t indices)
  | Constant.InsertValue aggregate _ _ => get_type types aggregate
  | Constant.GetElementPtr address indices _ =>
    (get_type types address).bind (fun t => gep_type types t indices)
  | Constant.Trunc _ toType => some toType
  | Constant.ZExt _ toType => some toType
  | Constant.SExt _ toType => some toType
  | Constant.FPTrunc _ toType => some toType
  | Constant.FPExt _ toType => some toType
  | Constant.FPToUI _ toType => some toType
  | Constant.FPToSI _ toType => some toType
  | Constant.UIToFP _ toType => some toType
  | Constant.SIToFP _ toType => some toType
  | Constant.PtrToInt _ toType => some toType
  | Constant.IntToPtr _ toType => some toType
  | Constant.BitCast _ toType => some toType
  | Constant.AddrSpaceCast _ toType => some toType
  | Constant.ICmp _ operand0 _ =>
    match get_type types operand0 with
    | some (Ty.VectorType _ numElements) =>
      some (types.vector_of types.bool numElements)
    | some _ => some types.bool
    | none => none
  | Constant.FCmp _ operand0 _ =>
    match get_type types operand0 with
    | some (Ty.VectorType _ numElements) =>
      some (types.vector_of types.bool numElements)
    | some _ => some types.bool
    | none => none
  | Constant.Select _ trueValue _ => get_type types trueValue

/-- Collecting the types of a struct constant's field values, as the
source's iterator `map`/`collect` does; a panic on any field propagates. -/
def get_type_list (types : Types) : List Constant → Option (List Ty)
  | [] => some []
  | c :: cs =>
    match get_type types c with
    | none => none
    | some t =>
      match get_type_list types cs with
      | none => none
      | some ts => some (t :: ts)

end

/-- A `Types` whose named-struct table is empty, for concrete evaluation. -/
def emptyTypes : Types := ⟨fun _ => none⟩

/-- name.rs, `Name::name_or_num` (modelled from the spec, since name.rs
is not under src/: assign the explicit name when the foreign handle
carries one, i.e. a non-empty value name, else the next sequence number
from the shared counter). Returns the assigned name together with the
updated counter. -/
def Name.name_or_num (s : String) (ctr : Nat) : Name × Nat :=
  if s = "" then (Name.number ctr, ctr + 1) else (Name.name s, ctr)

/-- Assign a `Name` to each value-name string in the list, threading the
shared counter left to right, exactly as each pass of
`Module::from_llvm_ref` does over the objects it processes. -/
def assign_names (ctr : Nat) : List String → List Name × Nat
  | [] => ([], ctr)
  | s :: rest =>
    let p := Name.name_or_num s ctr
    let q := assign_names p.2 rest
    (p.1 :: q.1, q.2)

/-- The foreign module as `Module::from_llvm_ref` observes it for global
numbering: the value-name strings (empty string = unnamed) of its
defined functions, declared functions, global variables, and global
aliases, each list in enumeration order. -/
structure ForeignModule where
  defined_functions : List String
  declared_functions : List String
  globals : List String
  global_aliases : List String

/-- module.rs, `Module::from_llvm_ref`, pass 1: the global name map is
built by chaining defined functions, declared functions, globals, and
global aliases, assigning names with `global_ctr` starting at 0. -/
def pass1_names (m : ForeignModule) : List Name :=
  (assign_names 0
    (m.defined_functions ++ m.declared_functions ++ m.globals ++ m.global_aliases)).1

/-- module.rs, `Module::from_llvm_ref`, pass 2, global variables:
`global_ctr` is reset to 0; `functions` are translated first but by
`Function::from_llvm_ref`, which is not given the counter, and declared
functions are not translated at all; so each `GlobalVariable` computes
its name from the counter starting at 0. -/
def pass2_global_var_names (m : ForeignModule) : List Name :=
  (assign_names 0 m.globals).1

/-- module.rs, `Module::from_llvm_ref`, pass 2, global aliases: each
`GlobalAlias` computes its name continuing the counter left by the
global variables. -/
def pass2_global_alias_names (m : ForeignModule) : List Name :=
  (assign_names (assign_names 0 m.globals).2 m.global_aliases).1

/-- The build context as constant.rs `Constant::from_llvm_ref` uses it:
`constants` is the cache mapping a foreign constant handle to the
allocation holding its translation, and `arena` records every distinct
shared allocation created during the build (an index into `arena` is an
allocation identity; equal indices mean the very same allocation). -/
structure ConstCtx where
  constants : List (Nat × Nat)
  arena : List Constant

/-- Cache lookup by foreign handle (the HashMap `get`). -/
def lookup_handle (m : List (Nat × Nat)) (h : Nat) : Option Nat :=
  match m with
  | [] => none
  | p :: rest => if p.1 = h then some p.2 else lookup_handle rest h

/-- constant.rs, `Constant::from_llvm_ref`: return the cached allocation
unchanged when this handle was seen before; otherwise parse it (`parse`
abstracts `parse_from_llvm_ref`, which may itself translate
sub-constants and so extend the context) and insert exactly one fresh
allocation for it. The source's `Entry::Occupied => panic` arm is
`none`. -/
def Constant.from_llvm_ref (parse : Nat → ConstCtx → Constant × ConstCtx)
    (constant : Nat) (ctx : ConstCtx) : Option (Nat × ConstCtx) :=
  match lookup_handle ctx.constants constant with
  | some constantref => some (constantref, ctx)
  | none =>
    let parsed := parse constant ctx
    match lookup_handle parsed.2.constants constant with
    | some _ => none
    | none =>
      some (parsed.2.arena.length,
        ⟨(constant, parsed.2.arena.length) :: parsed.2.constants,
         parsed.2.arena ++ [parsed.1]⟩)

/-- Modelled from the spec: function.rs is not under src/. A `Function`
is named by a `String` (`Module::get_func_by_name` documents that
Functions are named with Strings, not Names); its remaining fields play
no part in any claim. -/
structure Function where
  name : String

/-- module.rs, `Linkage`. -/
inductive Linkage where
  | Private | Internal | External | ExternalWeak | AvailableExternally
  | LinkOnceAny | LinkOnceODR | LinkOnceODRAutoHide | WeakAny | WeakODR
  | Common | Appending | DLLImport | DLLExport | Ghost
  | LinkerPrivate | LinkerPrivateWeak
deriving DecidableEq, Repr

/-- module.rs, `Visibility`. -/
inductive Visibility where
  | Default | Hidden | Protected
deriving DecidableEq, Repr

/-- module.rs, `DLLStorageClass`. -/
inductive DLLStorageClass where
  | Default | Import | Export
deriving DecidableEq, Repr

/-- module.rs, `ThreadLocalMode`. -/
inductive ThreadLocalMode where
  | NotThreadLocal | GeneralDynamic | LocalDynamic | InitialExec | LocalExec
deriving DecidableEq, Repr

/-- module.rs, `UnnamedAddr`. -/
inductive UnnamedAddr where
  | Local | Global
deriving DecidableEq, Repr

/-- module.rs, `SelectionKind`. -/
inductive SelectionKind where
  | Any | ExactMatch | Largest | NoDuplicates | SameSize
deriving DecidableEq, Repr

/-- module.rs, `Comdat`. -/
structure Comdat where
  name : String
  selection_kind : SelectionKind
deriving DecidableEq, Repr

/-- module.rs, `AddrSpace`. -/
def AddrSpace : Type := Nat

/-- module.rs, `GlobalVariable`. The `debugloc` field is omitted:
debug-info extraction is outside the modelled scope and debugloc.rs is
not under src/; no claim touches it. -/
structure GlobalVariable where
  name : Name
  linkage : Linkage
  visibility : Visibility
  is_constant : Bool
  ty : Ty
  addr_space : Nat
  dll_storage_class : DLLStorageClass
  thread_local_mode : ThreadLocalMode
  unnamed_addr : Option UnnamedAddr
  initializer : Option Constant
  «section» : Option String
  comdat : Option Comdat
  alignment : Nat

/-- module.rs, `GlobalAlias`. -/
structure GlobalAlias where
  name : Name
  aliasee : Constant
  linkage : Linkage
  visibility : Visibility
  ty : Ty
  addr_space : Nat
  dll_storage_class : DLLStorageClass
  thread_local_mode : ThreadLocalMode
  unnamed_addr : Option UnnamedAddr

/-- module.rs, `Module`. The named-struct-type map is modelled as an
association list; an entry with value `none` is an opaque type. -/
structure Module where
  name : String
  source_file_name : String
  data_layout : String
  target_triple : Option String
  functions : List Function
  global_vars : List GlobalVariable
  global_aliases : List GlobalAlias
  named_struct_types : List (String × Option Ty)
  inline_assembly : String

/-- module.rs, `Module::get_func_by_name`: the first defined function
whose `name` equals the given string, if any. -/
def Module.get_func_by_name (m : Module) (name : String) : Option Function :=
  m.functions.find? (fun func => func.name == name)

/-- C1 counterexample: a constant GetElementPtr whose address has type
pointer-to-i32 and whose index list is empty does not get type
pointer-to-i32; the code returns a pointer wrapping the address's own
pointer type. -/
theorem gep_empty_indices_cex :
    get_type emptyTypes
        (Constant.GetElementPtr
          (Constant.Null (Ty.PointerType (Ty.IntegerType 32) 0)) [] false)
      ≠ some (Ty.PointerType (Ty.IntegerType 32) 0) := by
  intro h
  have hval : get_type emptyTypes
      (Constant.GetElementPtr
        (Constant.Null (Ty.PointerType (Ty.IntegerType 32) 0)) [] false)
      = some (Ty.PointerType (Ty.PointerType (Ty.IntegerType 32) 0) 0) := rfl
  rw [hval] at h
  simp at h

/-- C1 (amended): for every constant GetElementPtr whose address operand
has type pointer-to-T (in any address space) and whose index list is
empty, get_type returns pointer-to-(pointer-to-T): the final pointer
wraps the address's own pointer type, since no index was consumed. -/
theorem gep_type_empty_indices (types : Types) (c : Constant) (t : Ty)
    (a : Nat) (ib : Bool)
    (h : get_type types c = some (Ty.PointerType t a)) :
    get_type types (Constant.GetElementPtr c [] ib)
      = some (Ty.PointerType (Ty.PointerType t a) 0) := by
  simp [get_type, h, gep_type, Types.pointer_to]

/-- Witness for C1's amended theorem at a concrete input. -/
theorem gep_type_empty_indices_witness :
    get_type emptyTypes
        (Constant.GetElementPtr
          (Constant.Undef (Ty.PointerType (Ty.IntegerType 8) 0)) [] true)
      = some (Ty.PointerType (Ty.PointerType (Ty.IntegerType 8) 0) 0) :=
  gep_type_empty_indices emptyTypes _ _ _ _ rfl

/-- C2: at the concrete foreign module with exactly one unnamed object
in each of the four categories, pass 1 assigns the unnamed global
variable sequence number 2 and the unnamed alias number 3, while pass 2
independently computes 0 and 1 for the same objects: the two passes
diverge (pass 2 never routes the counter through the functions), so the
claimed parity invariant fails. -/
theorem module_numbering_passes_diverge :
    pass1_names ⟨[""], [""], [""], [""]⟩
        = [Name.number 0, Name.number 1, Name.number 2, Name.number 3]
      ∧ pass2_global_var_names ⟨[""], [""], [""], [""]⟩ = [Name.number 0]
      ∧ pass2_global_alias_names ⟨[""], [""], [""], [""]⟩ = [Name.number 1]
      ∧ Name.number 2 ≠ Name.number 0 ∧ Name.number 3 ≠ Name.number 1 :=
  ⟨rfl, rfl, rfl, by decide, by decide⟩

/-- C3: during one build, a second call to Constant::from_llvm_ref with
the same foreign handle returns the cached allocation identity and
leaves the context unchanged (no new allocation is created); and when
the first call actually translated the handle (cache miss), the shared
allocation it created holds exactly the parsed constant, so two distinct
handles parsed to equal constants yield structurally equal stored
values. -/
theorem from_llvm_ref_memoizes (parse : Nat → ConstCtx → Constant × ConstCtx)
    (h : Nat) (ctx : ConstCtx) (r : Nat) (ctx1 : ConstCtx)
    (hc : Constant.from_llvm_ref parse h ctx = some (r, ctx1)) :
    Constant.from_llvm_ref parse h ctx1 = some (r, ctx1)
      ∧ (lookup_handle ctx.constants h = none →
          ctx1.arena[r]? = some (parse h ctx).1) := by
  cases hlook : lookup_handle ctx.constants h with
  | some v =>
    simp only [Constant.from_llvm_ref, hlook] at hc
    obtain ⟨hr, hctx⟩ : v = r ∧ ctx = ctx1 := by
      simpa using hc
    subst hr
    subst hctx
    refine ⟨?_, fun hnone => ?_⟩
    · simp only [Constant.from_llvm_ref, hlook]
    · exact Option.noConfusion hnone
  | none =>
    cases hlook2 : lookup_handle (parse h ctx).2.constants h with
    | some w =>
      simp only [Constant.from_llvm_ref, hlook, hlook2] at hc
      exact Option.noConfusion hc
    | none =>
      simp only [Constant.from_llvm_ref, hlook, hlook2] at hc
      obtain ⟨hr, hctx⟩ : (parse h ctx).2.arena.length = r
          ∧ (⟨(h, (parse h ctx).2.arena.length) :: (parse h ctx).2.constants,
              (parse h ctx).2.arena ++ [(parse h ctx).1]⟩ : ConstCtx) = ctx1 := by
        simpa using hc
      subst hr
      subst hctx
      refine ⟨?_, fun _ => ?_⟩
      · simp [Constant.from_llvm_ref, lookup_handle]
      · simp [List.getElem?_concat_length]

/-- Witness for C3's theorem at a concrete input: handle 7, a parse
function producing the literal i32 5 without touching the context, and
the empty build context. -/
theorem from_llvm_ref_memoizes_witness :
    Constant.from_llvm_ref (fun _ c => (Constant.Int 32 5, c)) 7
        ⟨[(7, 0)], [Constant.Int 32 5]⟩
      = some (0, ⟨[(7, 0)], [Constant.Int 32 5]⟩)
      ∧ ([Constant.Int 32 5] : List Constant)[0]? = some (Constant.Int 32 5) := by
  have hmain := from_llvm_ref_memoizes (fun _ c => (Constant.Int 32 5, c)) 7
    ⟨[], []⟩ 0 ⟨[(7, 0)], [Constant.Int 32 5]⟩ rfl
  exact ⟨hmain.1, hmain.2 rfl⟩

/-- C5: in gep_type, a pointer, vector, or array base dereferences
unconditionally one level per index, whatever the index constant is; in
particular a GEP into a pointer-to-array-of-10-i32 with indices [0, i]
has type pointer-to-i32 for every index constant i. -/
theorem gep_type_deref_unconditional (types : Types) :
    (∀ (pointee : Ty) (a : Nat) (index : Constant) (rest : List Constant),
        gep_type types (Ty.PointerType pointee a) (index :: rest)
          = gep_type types pointee rest)
      ∧ (∀ (elt : Ty) (n : Nat) (index : Constant) (rest : List Constant),
          gep_type types (Ty.VectorType elt n) (index :: rest)
            = gep_type types elt rest)
      ∧ (∀ (elt : Ty) (n : Nat) (index : Constant) (rest : List Constant),
          gep_type types (Ty.ArrayType elt n) (index :: rest)
            = gep_type types elt rest)
      ∧ (∀ (c : Constant) (a bits : Nat) (i : Constant) (ib : Bool),
          get_type types c
              = some (Ty.PointerType (Ty.ArrayType (Ty.IntegerType 32) 10) a) →
          get_type types (Constant.GetElementPtr c [Constant.Int bits 0, i] ib)
            = some (Ty.PointerType (Ty.IntegerType 32) 0)) := by
  refine ⟨fun _ _ _ _ => rfl, fun _ _ _ _ => rfl, fun _ _ _ _ => rfl, ?_⟩
  intro c a bits i ib h
  simp [get_type, h, gep_type, Types.pointer_to]

/-- C6: get_type of a constant InsertValue is the original aggregate
operand's own type, whatever the inserted element and the indices are;
and get_type of a constant ExtractValue with an empty index list is the
aggregate operand's own type unchanged. -/
theorem insertvalue_extractvalue_type_law (types : Types) :
    (∀ (aggregate element : Constant) (indices : List Nat),
        get_type types (Constant.InsertValue aggregate element indices)
          = get_type types aggregate)
      ∧ (∀ (aggregate : Constant),
          get_type types (Constant.ExtractValue aggregate [])
            = get_type types aggregate) := by
  refine ⟨fun _ _ _ => rfl, ?_⟩
  intro aggregate
  cases h : get_type types aggregate <;> simp [get_type, ev_type, h]

/-- C7: one step of ev_type on an array yields the element type with no
check of the index against the array length; on a struct it yields the
element at the index, and an out-of-range struct index is fatal; any
other type while indices remain is fatal. -/
theorem ev_type_step_rules :
    (∀ (elt : Ty) (n index : Nat) (rest : List Nat),
        ev_type (Ty.ArrayType elt n) (index :: rest) = ev_type elt rest)
      ∧ (∀ (elts : List Ty) (packed : Bool) (index : Nat) (rest : List Nat),
          ev_type (Ty.StructType elts packed) (index :: rest)
            = (elts[index]?).bind (fun t => ev_type t rest))
      ∧ (∀ (elts : List Ty) (packed : Bool) (index : Nat) (rest : List Nat),
          elts.length ≤ index →
          ev_type (Ty.StructType elts packed) (index :: rest) = none)
      ∧ (∀ (t : Ty) (index : Nat) (rest : List Nat),
          (∀ e n, t ≠ Ty.ArrayType e n) →
          (∀ es p, t ≠ Ty.StructType es p) →
          ev_type t (index :: rest) = none) := by
  refine ⟨fun _ _ _ _ => rfl, ?_, ?_, ?_⟩
  · intro elts packed index rest
    cases hget : elts[index]? <;> simp [ev_type, hget]
  · intro elts packed index rest hlen
    simp [ev_type, List.getElem?_eq_none hlen]
  · intro t index rest hna hns
    cases t <;> first
      | exact absurd rfl (hna _ _)
      | exact absurd rfl (hns _ _)
      | rfl

/-- C8: get_type of a constant ShuffleVector whose first operand has a
vector type and whose mask has a vector type is a vector with the first
operand's element type and the mask's length; the mask's element type
and the operand's length are ignored. -/
theorem shufflevector_type_from_mask (types : Types)
    (operand0 operand1 mask : Constant) (elt : Ty) (n : Nat)
    (melt : Ty) (m : Nat)
    (h0 : get_type types operand0 = some (Ty.VectorType elt n))
    (hm : get_type types mask = some (Ty.VectorType melt m)) :
    get_type types (Constant.ShuffleVector operand0 operand1 mask)
      = some (Ty.VectorType elt m) := by
  simp [get_type, h0, hm, Types.vector_of]

/-- Witness for C8's theorem at a concrete input where the mask's length
(3) differs from the operand's length (1) and the mask's element type
(i1) differs from the operand's element type (i32). -/
theorem shufflevector_type_from_mask_witness :
    get_type emptyTypes
        (Constant.ShuffleVector (Constant.Vector [Constant.Int 32 0])
          (Constant.Undef (Ty.VectorType (Ty.IntegerType 32) 1))
          (Constant.Vector [Constant.Int 1 0, Constant.Int 1 1, Constant.Int 1 0]))
      = some (Ty.VectorType (Ty.IntegerType 32) 3) :=
  shufflevector_type_from_mask emptyTypes _ _ _ _ _ _ _ rfl rfl

/-- C9: Module::get_func_by_name returns none exactly when no defined
function bears the name, and when it returns some function, that
function bears the name and is the first such function in list order. -/
theorem get_func_by_name_correct (m : Module) (s : String) :
    (m.get_func_by_name s = none ↔ ∀ f ∈ m.functions, f.name ≠ s)
      ∧ (∀ f, m.get_func_by_name s = some f →
          f.name = s ∧ ∃ l1 l2, m.functions = l1 ++ f :: l2
            ∧ ∀ g ∈ l1, g.name ≠ s) := by
  constructor
  · unfold Module.get_func_by_name
    rw [List.find?_eq_none]
    constructor
    · intro hall f hf
      simpa using hall f hf
    · intro hall f hf
      simpa using hall f hf
  · intro f
    unfold Module.get_func_by_name
    generalize m.functions = l
    induction l with
    | nil => intro hfind; cases hfind
    | cons a tl ih =>
      intro hfind
      by_cases ha : a.name = s
      · have : a = f := by
          rw [List.find?_cons_of_pos _ (by simpa using ha)] at hfind
          simpa using hfind
        subst this
        exact ⟨ha, [], tl, rfl, by simp⟩
      · rw [List.find?_cons_of_neg _ (by simpa using ha)] at hfind
        obtain ⟨hname, l1, l2, heq, hnone⟩ := ih hfind
        refine ⟨hname, a :: l1, l2, by rw [heq]; rfl, ?_⟩
        intro g hg
        rcases List.mem_cons.mp hg with hg | hg
        · subst hg; exact ha
        · exact hnone g hg

/-- C10: get_type of a Constant::Vector with an empty element list is a
panic (the out-of-bounds index 0); with a non-empty list it is the
vector type of (type of the first element, number of elements), derived
solely from the first element, so lists agreeing on head and length get
the same type no matter what the later elements are. -/
theorem vector_constant_type (types : Types) :
    (get_type types (Constant.Vector []) = none)
      ∧ (∀ (v0 : Constant) (rest : List Constant),
          get_type types (Constant.Vector (v0 :: rest))
            = (get_type types v0).map
                (fun t => Ty.VectorType t (rest.length + 1)))
      ∧ (∀ (v0 : Constant) (rest rest' : List Constant),
          rest.length = rest'.length →
          get_type types (Constant.Vector (v0 :: rest))
            = get_type types (Constant.Vector (v0 :: rest'))) := by
  have h2 : ∀ (v0 : Constant) (rest : List Constant),
      get_type types (Constant.Vector (v0 :: rest))
        = (get_type types v0).map (fun t => Ty.VectorType t (rest.length + 1)) := by
    intro v0 rest
    simp [get_type, Types.vector_of]
  refine ⟨rfl, h2, ?_⟩
  intro v0 rest rest' hlen
  rw [h2, h2, hlen]

end LlvmIr
